import Mathlib

/-!
Verification development for the replication core of the zrepl repository
(frame layer, RPC dispatcher, server-side handler, pull orchestrator).

Each definition is a shallow embedding of a function of the Go sources:
  - `rpc/frame_layer.go` (first document): frames, `readFrame`, `writeFrame`,
    `HangUp`, the frame-bridging reader/writer;
  - the unnamed rpc server file (`Server.ServeRequest` / `Server.Serve`);
  - the unnamed cmd handler file (second document: the `Handler` carrying a
    dataset filter `dsf` and a version filter `fsvf`);
  - the unnamed cmd pull file (first document): the `ConflictAllRight` and
    `ConflictIncremental` branches of `doPull`'s per-filesystem procedure.

Bytes on the wire are modelled as `Nat` (machine value of a `uint8`);
the byte channel is a `List Nat`.  External collaborators (the `zfs`
package, `encoding/json`, the remote RPC peer) are modelled as
environments of oracle functions; the embedding records faithfully how
their results are used.  Go `error` results are modelled as
`Option String` or `Except String`.
-/

namespace Zrepl

/-! ### Frame layer (`rpc/frame_layer.go`) -/

/-- `MAX_PAYLOAD_LENGTH = 4 * 1024 * 1024` from `frame_layer.go`. -/
def MAX_PAYLOAD_LENGTH : Nat := 4 * 1024 * 1024

/-- `MAX_HEADER_LENGTH = 4 * 1024` from `frame_layer.go`. -/
def MAX_HEADER_LENGTH : Nat := 4 * 1024

/-- The fixed frame header record: `Type uint8`, `NoMoreFrames bool`,
`PayloadLength uint32` (`type Frame struct` in `frame_layer.go`).
The `uint8`/`uint32` fields are carried as `Nat` machine values. -/
structure Frame where
  type : Nat
  noMoreFrames : Bool
  payloadLength : Nat
  deriving Repr, DecidableEq

/-- Little-endian `uint32` serialization, as produced by
`binary.Write(l.rwc, binary.LittleEndian, &f.PayloadLength)`. -/
def u32le (n : Nat) : List Nat :=
  [n % 256, n / 256 % 256, n / 65536 % 256, n / 16777216 % 256]

/-- Little-endian `uint32` deserialization, as performed by
`binary.Read(l.rwc, binary.LittleEndian, &f.PayloadLength)`. -/
def decodeU32le (b0 b1 b2 b3 : Nat) : Nat :=
  b0 % 256 + 256 * (b1 % 256) + 65536 * (b2 % 256) + 16777216 * (b3 % 256)

/-- The byte image of a bool as written by `binary.Write` for a `bool`. -/
def boolByte (b : Bool) : Nat := if b then 1 else 0

/-- `MessageLayer.writeFrame`: writes the 6-byte header
(`Type`, `NoMoreFrames`, `PayloadLength` little-endian) onto the channel and
only afterwards checks `f.PayloadLength > MAX_PAYLOAD_LENGTH`, in which case
it returns the error "frame exceeds max payload length".  Returns the bytes
put on the wire and the error result. -/
def writeFrame (f : Frame) : List Nat × Option String :=
  let header := f.type % 256 :: boolByte f.noMoreFrames :: u32le f.payloadLength
  if f.payloadLength > MAX_PAYLOAD_LENGTH then
    (header, some "frame exceeds max payload length")
  else
    (header, none)

/-- `MessageLayer.readFrame`: reads `Type` (1 byte), `NoMoreFrames` (1 byte)
and `PayloadLength` (4 bytes little-endian) from the channel, then fails with
"frame exceeds max payload length" if the declared length exceeds
`MAX_PAYLOAD_LENGTH`.  Returns the result together with the bytes remaining
on the channel; a short channel is an I/O read error. -/
def readFrame (s : List Nat) : Except String Frame × List Nat :=
  match s with
  | t :: nm :: b0 :: b1 :: b2 :: b3 :: rest =>
    let pl := decodeU32le b0 b1 b2 b3
    if pl > MAX_PAYLOAD_LENGTH then
      (Except.error "frame exceeds max payload length", rest)
    else
      (Except.ok ⟨t % 256, nm % 256 ≠ 0, pl⟩, rest)
  | _ => (Except.error "io error reading frame header", [])

/-- The state of the underlying byte channel (`l.rwc`) as seen by `HangUp`:
whether low-level writes on it currently fail, the error result its `Close`
would produce, and whether it has been closed. -/
structure ByteChannel where
  writeErr : Option String
  closeErr : Option String
  closed : Bool

/-- Writing a frame onto a `ByteChannel`: a failing channel makes
`binary.Write` fail; otherwise the result is the `writeFrame` guard result. -/
def writeFrameOnChannel (ch : ByteChannel) (f : Frame) : Option String :=
  match ch.writeErr with
  | some e => some e
  | none => (writeFrame f).2

/-- `MessageLayer.HangUp`: writes an RST frame (`Frame{Type: FrameTypeRST}`,
whose write result is `rstFrameError`), then closes the channel
(`closeErr := l.rwc.Close()`), and returns `rstFrameError` if it is non-nil,
otherwise `closeErr`. -/
def hangUp (ch : ByteChannel) : ByteChannel × Option String :=
  let rstFrameError := writeFrameOnChannel ch ⟨0xff, false, 0⟩
  let ch2 : ByteChannel := { ch with closed := true }
  let closeErr := ch.closeErr
  match rstFrameError with
  | some e => (ch2, some e)
  | none => (ch2, closeErr)

/-! ### Frame-bridging writer and reader (`frame_layer.go`)

The writer and reader are embedded as state machines over a `List Nat`
byte channel.  The channel cannot itself fail, so the I/O error paths of
`binary.Write`/`WriteTo` never fire; a read past the end of the channel is
`io.EOF`. -/

/-- `frameBridgingWriter`: frame type, remaining total limit (`< 0` means
no limit, as for data streams), per-frame `payloadLength` (always
`MAX_PAYLOAD_LENGTH` as set by `NewFrameBridgingWriter`), and the buffer. -/
structure FrameBridgingWriter where
  frameType : Nat
  bytesLeftToLimit : Int
  payloadLength : Nat
  buffer : List Nat
  deriving Repr, DecidableEq

/-- `frameBridgingWriter.flush(nomore)`: writes a frame header
`Frame{w.frameType, nomore, uint32(w.buffer.Len())}` (the `writeFrame`
error is dropped by the source: the `errors.WithStack(err)` statement
discards its result), then `w.buffer.WriteTo(w.l.rwc)` drains the buffer
onto the channel. -/
def bwFlush (w : FrameBridgingWriter) (nomore : Bool) (wire : List Nat) :
    FrameBridgingWriter × List Nat :=
  let f : Frame := ⟨w.frameType, nomore, w.buffer.length⟩
  ({ w with buffer := [] }, wire ++ (writeFrame f).1 ++ w.buffer)

/-- `frameBridgingWriter.writeUntilFrameFull(b)`: take
`maxwrite = min(len(b), payloadLength - buffer.Len())`, capped by the
remaining total limit when one is set; append to the buffer; flush with
`NoMoreFrames=true` when the limit is exactly exhausted, with
`NoMoreFrames=false` when the buffer reached `payloadLength`.  Returns
`(n, writer, wire, err)`. -/
def writeUntilFrameFull (w : FrameBridgingWriter) (b : List Nat)
    (wire : List Nat) : Nat × FrameBridgingWriter × List Nat × Option String :=
  if b.length = 0 then
    (0, w, wire, none)
  else if w.bytesLeftToLimit = 0 then
    (0, w, wire, some "exceeded limit of total bytes for this message")
  else
    let maxwrite0 := min b.length (w.payloadLength - w.buffer.length)
    let maxwrite :=
      if 0 < w.bytesLeftToLimit ∧ w.bytesLeftToLimit < (maxwrite0 : Int) then
        w.bytesLeftToLimit.toNat
      else
        maxwrite0
    let w1 : FrameBridgingWriter :=
      { w with buffer := w.buffer ++ b.take maxwrite,
               bytesLeftToLimit := w.bytesLeftToLimit - maxwrite }
    if w1.bytesLeftToLimit = 0 then
      let fl := bwFlush w1 true wire
      (maxwrite, fl.1, fl.2, none)
    else if w1.buffer.length = w1.payloadLength then
      let fl := bwFlush w1 false wire
      (maxwrite, fl.1, fl.2, none)
    else
      (maxwrite, w1, wire, none)

/-- `frameBridgingWriter.Write(b)`: loop `writeUntilFrameFull` over the not
yet written suffix of `b` until all of `b` is consumed or an error occurs.
The fuel argument bounds the number of loop iterations (each iteration
writes at least one byte whenever the limit is off and
`payloadLength > 0`, so fuel `b.length` suffices). -/
def bwWriteLoop : Nat → FrameBridgingWriter → List Nat → List Nat →
    FrameBridgingWriter × List Nat × Option String
  | 0, w, _, wire => (w, wire, none)
  | fuel + 1, w, b, wire =>
    if b.length = 0 then
      (w, wire, none)
    else
      let step := writeUntilFrameFull w b wire
      match step.2.2.2 with
      | some e => (step.2.1, step.2.2.1, some e)
      | none => bwWriteLoop fuel step.2.1 (b.drop step.1) step.2.2.1

/-- Writing one byte sequence through the bridging writer and closing it,
as `MessageLayer.WriteData` does (`NewFrameBridgingWriter(l, frameType,
-1)`; copy the source; `w.Close()`, i.e. `flush(true)`).  Returns the bytes
put on the channel. -/
def writeStream (ft : Nat) (S : List Nat) : List Nat :=
  let w0 : FrameBridgingWriter := ⟨ft, -1, MAX_PAYLOAD_LENGTH, []⟩
  let res := bwWriteLoop S.length w0 S []
  (bwFlush res.1 true res.2.1).2

/-- The result of one `frameBridgingReader.Read` call: bytes with a nil
error, `(0, io.EOF)`, or a non-EOF error. -/
inductive ReadResult where
  | bytes (bs : List Nat)
  | eof
  | err (msg : String)
  deriving Repr, DecidableEq

/-- `frameBridgingReader`: frame type, remaining total limit (`< 0` means
no limit) and the current frame `r.f` (zero value
`Frame{0, false, 0}` after `NewFrameBridgingReader`). -/
structure FrameBridgingReader where
  frameType : Nat
  bytesLeftToLimit : Int
  f : Frame
  deriving Repr, DecidableEq

/-- The payload-reading tail of `frameBridgingReader.Read`:
`maxread = min(len(b), r.f.PayloadLength)`, capped by the remaining total
limit when one is set; `nb, err := r.l.rwc.Read(b[:maxread])` (on the list
channel: up to `maxread` bytes, `io.EOF` if the channel is exhausted while
bytes were requested); `r.f.PayloadLength -= nb; r.bytesLeftToLimit -= nb`.
`k` is the caller's buffer size `len(b)`. -/
def brReadPayload (r : FrameBridgingReader) (k : Nat) (wire : List Nat) :
    ReadResult × FrameBridgingReader × List Nat :=
  let maxread0 := min k r.f.payloadLength
  let maxread :=
    if 0 < r.bytesLeftToLimit ∧ r.bytesLeftToLimit < (maxread0 : Int) then
      r.bytesLeftToLimit.toNat
    else
      maxread0
  if maxread = 0 then
    (ReadResult.bytes [], r, wire)
  else if wire.length = 0 then
    (ReadResult.eof, r, wire)
  else
    let nb := min maxread wire.length
    (ReadResult.bytes (wire.take nb),
      { r with
        f := { r.f with payloadLength := r.f.payloadLength - nb },
        bytesLeftToLimit := r.bytesLeftToLimit - nb },
      wire.drop nb)

/-- `frameBridgingReader.Read` with a caller buffer of size `k`: an
exactly-exhausted total limit is EOF; with the current frame consumed,
`NoMoreFrames` is EOF and otherwise the next frame is read from the channel
(a frame of the wrong type is silently swallowed, because
`errors.Wrapf(err, ...)` wraps the nil `err` of the successful `readFrame`
and therefore returns nil — a source quirk that a same-type round trip
never hits); then the payload is read. -/
def brRead (r : FrameBridgingReader) (k : Nat) (wire : List Nat) :
    ReadResult × FrameBridgingReader × List Nat :=
  if r.bytesLeftToLimit = 0 then
    (ReadResult.eof, r, wire)
  else if r.f.payloadLength = 0 then
    if r.f.noMoreFrames then
      (ReadResult.eof, r, wire)
    else
      match readFrame wire with
      | (Except.error e, rest) =>
        (ReadResult.err ("error reading frame: " ++ e), r, rest)
      | (Except.ok f, rest) =>
        if f.type ≠ r.frameType then
          (ReadResult.bytes [], { r with f := f }, rest)
        else
          brReadPayload { r with f := f } k rest
  else
    brReadPayload r k wire

/-- Reading a bridged stream to the end: call `Read` with a
`MAX_PAYLOAD_LENGTH`-sized buffer until EOF (as a consumer of
`MessageLayer.ReadData` does), concatenating the chunks.  The fuel bounds
the number of `Read` calls. -/
def brReadAll : Nat → FrameBridgingReader → List Nat → List Nat →
    Except String (List Nat)
  | 0, _, _, _ => Except.error "out of fuel"
  | fuel + 1, r, wire, acc =>
    match brRead r MAX_PAYLOAD_LENGTH wire with
    | (ReadResult.eof, _, _) => Except.ok acc
    | (ReadResult.err e, _, _) => Except.error e
    | (ReadResult.bytes bs, r1, wire1) => brReadAll fuel r1 wire1 (acc ++ bs)

/-- Closed form of the channel content the bridging writer produces for a
byte sequence `S` (used in the correctness proofs): full
`MAX_PAYLOAD_LENGTH`-sized frames with `NoMoreFrames=false`, then one final
frame with `NoMoreFrames=true` carrying the remainder. -/
def chunkedWire (ft : Nat) (S : List Nat) : List Nat :=
  if h : MAX_PAYLOAD_LENGTH ≤ S.length then
    (writeFrame ⟨ft, false, MAX_PAYLOAD_LENGTH⟩).1 ++ S.take MAX_PAYLOAD_LENGTH
      ++ chunkedWire ft (S.drop MAX_PAYLOAD_LENGTH)
  else
    (writeFrame ⟨ft, true, S.length⟩).1 ++ S
termination_by S.length
decreasing_by
  simp only [List.length_drop]
  simp only [MAX_PAYLOAD_LENGTH] at h ⊢
  omega

/-! ### zfs package data model

The `zfs` package itself is not among the provided sources (only its callers
are), so its data types are modelled from the spec. -/

/-- Modelled from the spec: `zfs.DatasetPath`, missing from the sources.
"An ordered sequence of non-empty name components.  Two paths are equal iff
their component sequences are equal.  Serialized with `/` separators." -/
structure DatasetPath where
  components : List String
  deriving Repr, DecidableEq

/-- Modelled from the spec: `DatasetPath.ToString`, serialization with `/`
separators. -/
def DatasetPath.toString (p : DatasetPath) : String :=
  String.intercalate "/" p.components

/-- Modelled from the spec: the `Type` field of `zfs.FilesystemVersion`,
`Type ∈ {Snapshot, Bookmark}` (`zfs.Snapshot`, `zfs.Bookmark`). -/
inductive VersionType where
  | bookmark
  | snapshot
  deriving Repr, DecidableEq

/-- Modelled from the spec: `zfs.FilesystemVersion`, missing from the
sources.  "A record {Type ∈ {Snapshot, Bookmark}, Name, GUID:u64,
CreateTXG:u64, Creation:timestamp}."  The timestamp is abstracted to a
`Nat`. -/
structure FilesystemVersion where
  type : VersionType
  name : String
  guid : Nat
  createTXG : Nat
  creation : Nat
  deriving Repr, DecidableEq

/-- Modelled from the spec: `FilesystemVersion.ToAbsPath`, the version
rendered against its filesystem path (snapshots use the `@` separator,
bookmarks `#`, following the glossary). -/
def FilesystemVersion.toAbsPath (v : FilesystemVersion) (p : DatasetPath) : String :=
  p.toString ++ (match v.type with
    | VersionType.snapshot => "@"
    | VersionType.bookmark => "#") ++ v.name

/-- `zfs.DatasetFilter.Filter(p) (pass bool, err error)`: every caller
consults `err` first and only then `pass`, so the oracle is modelled as
`Except`: `.error e` for a non-nil error, `.ok pass` otherwise. -/
def DatasetFilter : Type := DatasetPath → Except String Bool

/-- `zfs.FilesystemVersionFilter.Filter(v) (accept bool, err error)`,
modelled like `DatasetFilter`. -/
def FilesystemVersionFilter : Type := FilesystemVersion → Except String Bool

/-- An opaque `zfs send` stream handle (`io.Reader` in the sources). -/
structure SendStream where
  id : Nat
  deriving Repr, DecidableEq

/-- Oracle environment for the `zfs` package operations the handler invokes:
the results `ZFSListFilesystemVersions(fs, filter)` and
`ZFSSend(fs, from, to)` would produce. -/
structure ZfsEnv where
  listFilesystemVersions :
    DatasetPath → Option FilesystemVersionFilter → Except String (List FilesystemVersion)
  send :
    DatasetPath → Option FilesystemVersion → Option FilesystemVersion →
      Except String SendStream

/-! ### Server-side handler (unnamed cmd handler file, second document:
the `Handler` with dataset filter `dsf` and version filter `fsvf`) -/

/-- `FilesystemVersionsRequest` from the unnamed cmd handler file. -/
structure FilesystemVersionsRequest where
  filesystem : DatasetPath
  deriving Repr, DecidableEq

/-- `InitialTransferRequest` from the unnamed cmd handler file. -/
structure InitialTransferRequest where
  filesystem : DatasetPath
  filesystemVersion : FilesystemVersion
  deriving Repr, DecidableEq

/-- `IncrementalTransferRequest` from the unnamed cmd handler file. -/
structure IncrementalTransferRequest where
  filesystem : DatasetPath
  From : FilesystemVersion
  To : FilesystemVersion
  deriving Repr, DecidableEq

/-- `Handler` (second document of the unnamed cmd handler file): dataset
filter `dsf` and filesystem version filter `fsvf`; the logger is a no-op. -/
structure Handler where
  dsf : DatasetFilter
  fsvf : FilesystemVersionFilter

/-- `Handler.pullACLCheck(p, v)`: evaluates `h.dsf.Filter(p)`; a filter
error or a deny produces an error.  If `v` is non-nil it then evaluates
`h.fsvf.Filter(*v)` the same way. -/
def pullACLCheck (h : Handler) (p : DatasetPath) (v : Option FilesystemVersion) :
    Except String Unit :=
  match h.dsf p with
  | Except.error e => Except.error ("error evaluating ACL: " ++ e)
  | Except.ok false => Except.error ("ACL prohibits access to " ++ p.toString)
  | Except.ok true =>
    match v with
    | none => Except.ok ()
    | some v =>
      match h.fsvf v with
      | Except.error e => Except.error ("error evaluating version filter: " ++ e)
      | Except.ok false => Except.error ("ACL prohibits access to " ++ v.toAbsPath p)
      | Except.ok true => Except.ok ()

/-- `Handler.HandleFilesystemVersionsRequest`.  The source reads
`if h.pullACLCheck(r.Filesystem, nil); err != nil { return }`: the call's
result is evaluated but never bound, and `err` is the still-nil named return
value, so the early return is never taken.  The embedding therefore performs
the call for effect only and always proceeds to
`zfs.ZFSListFilesystemVersions(r.Filesystem, h.fsvf)`.  The second component
records whether the ZFS version listing was invoked. -/
def handleFilesystemVersionsRequest (env : ZfsEnv) (h : Handler)
    (r : FilesystemVersionsRequest) :
    Except String (List FilesystemVersion) × Bool :=
  let _aclResultDiscarded := pullACLCheck h r.filesystem none
  match env.listFilesystemVersions r.filesystem (some h.fsvf) with
  | Except.error e => (Except.error e, true)
  | Except.ok vs => (Except.ok vs, true)

/-- `Handler.HandleInitialTransferRequest`:
`if err = h.pullACLCheck(r.Filesystem, &r.FilesystemVersion); err != nil
{ return }`, then `zfs.ZFSSend(r.Filesystem, &r.FilesystemVersion, nil)`.
The second component records whether `ZFSSend` was invoked. -/
def handleInitialTransferRequest (env : ZfsEnv) (h : Handler)
    (r : InitialTransferRequest) :
    Except String SendStream × Bool :=
  match pullACLCheck h r.filesystem (some r.filesystemVersion) with
  | Except.error e => (Except.error e, false)
  | Except.ok _ =>
    match env.send r.filesystem (some r.filesystemVersion) none with
    | Except.error e => (Except.error e, true)
    | Except.ok s => (Except.ok s, true)

/-- `Handler.HandleIncrementalTransferRequest`: ACL-checks `(Filesystem,
From)` and `(Filesystem, To)`, then `zfs.ZFSSend(r.Filesystem, &r.From,
&r.To)`. -/
def handleIncrementalTransferRequest (env : ZfsEnv) (h : Handler)
    (r : IncrementalTransferRequest) :
    Except String SendStream × Bool :=
  match pullACLCheck h r.filesystem (some r.From) with
  | Except.error e => (Except.error e, false)
  | Except.ok _ =>
    match pullACLCheck h r.filesystem (some r.To) with
    | Except.error e => (Except.error e, false)
    | Except.ok _ =>
      match env.send r.filesystem (some r.From) (some r.To) with
      | Except.error e => (Except.error e, true)
      | Except.ok s => (Except.ok s, true)

/-! ### Pull orchestrator (`doPull`, unnamed cmd pull file, first document)

The per-filesystem procedure's conflict branches are embedded as functions
from an oracle environment (the remote RPC peer and the local `zfs`
operations) to the visitor's boolean result, the accumulated received byte
count, and the trace of externally visible operations performed. -/

/-- An externally visible operation performed by `doPull`'s per-filesystem
procedure. -/
inductive PullEvent where
  | initialTransferReq (fs : DatasetPath) (v : FilesystemVersion)
  | incrementalTransferReq (fs : DatasetPath) (From To : FilesystemVersion)
  | zfsRecv (fs : DatasetPath) (args : List String)
  | zfsSet (fs : DatasetPath) (prop val : String)
  deriving Repr, DecidableEq

/-- Oracle environment for the transfer branches of `doPull`: results of
`remote.Call("InitialTransferRequest", ...)`,
`remote.Call("IncrementalTransferRequest", ...)`, of `zfs.ZFSRecv` on a
given stream with given flags, the byte count the `IOProgressWatcher`
reports for a stream (`watcher.Progress().TotalRX`), and the result of
`zfs.ZFSSet`. -/
structure PullEnv where
  initialCall : InitialTransferRequest → Except String SendStream
  incrementalCall : IncrementalTransferRequest → Except String SendStream
  recvResult : DatasetPath → List String → SendStream → Except String Unit
  recvBytes : SendStream → Nat
  setResult : DatasetPath → String → String → Except String Unit

/-- `InitialReplPolicy` from the unnamed cmd pull file
(`most_recent` / `all`). -/
inductive InitialReplPolicy where
  | mostRecent
  | allVersions
  deriving Repr, DecidableEq

/-- The `snapsOnly` accumulation loop of the `ConflictAllRight` branch:
`for s := range diff.MRCAPathRight { if ...Type == zfs.Snapshot { snapsOnly =
append(snapsOnly, ...) } }`. -/
def snapsOnlyOf (mrcaPathRight : List FilesystemVersion) : List FilesystemVersion :=
  mrcaPathRight.foldl
    (fun acc s => if s.type = VersionType.snapshot then acc ++ [s] else acc) []

/-- The body of the `zfs.ConflictAllRight` case of `doPull` (after the
policy guard): build `snapsOnly`; if `len(snapsOnly) < 1` return `false`
("cannot perform initial sync: no remote snapshots"); otherwise issue
`InitialTransferRequest` for `snapsOnly[len(snapsOnly)-1]` (the `getLast?`
match is the `len < 1` test combined with that index), `zfs.ZFSRecv` with
`recvArgs = ["-u"]` plus `"-F"` when the local state is a placeholder, and
finally `zfs.ZFSSet(local, "readonly", "on")` whose error the source
ignores (`if err = ...; err != nil { }`). -/
def conflictAllRightBody (env : PullEnv) (remote localFs : DatasetPath)
    (placeholder : Bool) (mrcaPathRight : List FilesystemVersion) :
    Bool × List PullEvent :=
  let snapsOnly := snapsOnlyOf mrcaPathRight
  match snapsOnly.getLast? with
  | none => (false, [])
  | some v =>
    let r : InitialTransferRequest := ⟨remote, v⟩
    match env.initialCall r with
    | Except.error _ => (false, [PullEvent.initialTransferReq remote v])
    | Except.ok stream =>
      -- recvArgs := []string{"-u"}; if placeholder { recvArgs = append(recvArgs, "-F") }
      let recvArgs := if placeholder then ["-u", "-F"] else ["-u"]
      match env.recvResult localFs recvArgs stream with
      | Except.error _ =>
        (false, [PullEvent.initialTransferReq remote v,
          PullEvent.zfsRecv localFs recvArgs])
      | Except.ok _ =>
        let _setErrIgnored := env.setResult localFs "readonly" "on"
        (true, [PullEvent.initialTransferReq remote v,
          PullEvent.zfsRecv localFs recvArgs,
          PullEvent.zfsSet localFs "readonly" "on"])

/-- The `zfs.ConflictAllRight` case of `doPull` including the policy guard:
`if pull.InitialReplPolicy != InitialReplPolicyMostRecent { panic(...) }`.
The panic for unimplemented policies is modelled as `none`. -/
def conflictAllRight (policy : InitialReplPolicy) (env : PullEnv)
    (remote localFs : DatasetPath) (placeholder : Bool)
    (mrcaPathRight : List FilesystemVersion) :
    Option (Bool × List PullEvent) :=
  if policy = InitialReplPolicy.mostRecent then
    some (conflictAllRightBody env remote localFs placeholder mrcaPathRight)
  else
    none

/-- The adjacent pairs `(IncrementalPath[i], IncrementalPath[i+1])` for
`i = 0 .. len-2`, in index order. -/
def adjacentPairs (l : List FilesystemVersion) :
    List (FilesystemVersion × FilesystemVersion) :=
  l.zip l.tail

/-- The loop body of the `zfs.ConflictIncremental` case of `doPull`: for
each pair, `remote.Call("IncrementalTransferRequest", ...)` (abort on
error), `zfs.ZFSRecv(m.Local, &watcher)` with no additional flags (abort on
error), then `pathRx += watcher.Progress().TotalRX`. -/
def incrementalSteps (env : PullEnv) (remote localFs : DatasetPath) :
    List (FilesystemVersion × FilesystemVersion) → Bool × Nat × List PullEvent
  | [] => (true, 0, [])
  | q :: rest =>
    let r : IncrementalTransferRequest := ⟨remote, q.1, q.2⟩
    match env.incrementalCall r with
    | Except.error _ =>
      (false, 0, [PullEvent.incrementalTransferReq remote q.1 q.2])
    | Except.ok stream =>
      match env.recvResult localFs [] stream with
      | Except.error _ =>
        (false, 0, [PullEvent.incrementalTransferReq remote q.1 q.2,
          PullEvent.zfsRecv localFs []])
      | Except.ok _ =>
        let totalRx := env.recvBytes stream
        let rest' := incrementalSteps env remote localFs rest
        (rest'.1, totalRx + rest'.2.1,
          PullEvent.incrementalTransferReq remote q.1 q.2 ::
            PullEvent.zfsRecv localFs [] :: rest'.2.2)

/-- The `zfs.ConflictIncremental` case of `doPull`: if
`len(diff.IncrementalPath) < 2` the filesystems are in sync and nothing is
done; otherwise the loop over adjacent pairs runs. -/
def conflictIncremental (env : PullEnv) (remote localFs : DatasetPath)
    (incrementalPath : List FilesystemVersion) : Bool × Nat × List PullEvent :=
  if incrementalPath.length < 2 then
    (true, 0, [])
  else
    incrementalSteps env remote localFs (adjacentPairs incrementalPath)

/-- The initial transfer requests issued in a trace. -/
def initialReqsOf (tr : List PullEvent) : List (DatasetPath × FilesystemVersion) :=
  tr.filterMap fun e => match e with
    | PullEvent.initialTransferReq fs v => some (fs, v)
    | _ => none

/-! ### RPC dispatcher (unnamed rpc server file: `Server.ServeRequest`)

The payload universe is a type parameter `V`: a JSON-decodable value or an
octet stream, as the endpoint's input/output types dictate.  Reply writes
are modelled as succeeding (an I/O write failure would make `ServeRequest`
return its error and `Serve` hang up; only the no-failure behaviour is
claimed). -/

/-- `Status` from `frame_layer.go`: `StatusOK = 1`, `StatusRequestError`,
`StatusServerError`. -/
inductive Status where
  | ok
  | requestError
  | serverError
  deriving Repr, DecidableEq

/-- `DataType` from `frame_layer.go`: `DataTypeMarshaledJSON = 1`,
`DataTypeOctets`. -/
inductive DataType where
  | marshaledJSON
  | octets
  deriving Repr, DecidableEq

/-- `Header` from `frame_layer.go`.  Go zero values of the enum fields are
modelled as `none`. -/
structure Header where
  endpoint : String
  dataType : Option DataType
  accept : Option DataType
  error : Option Status
  errorMessage : String
  deriving Repr, DecidableEq

/-- `NewErrorHeader(status, format, args...)`: a header with only `Error`
and `ErrorMessage` set. -/
def newErrorHeader (st : Status) (msg : String) : Header :=
  ⟨"", none, none, some st, msg⟩

/-- `endpointDescr`: the protocol-level input/output types pinned by
`makeEndpointDescr` from the handler's reflected signature, and the handler
itself (its Go `error` result modelled as `Except`). -/
structure EndpointDescr (V : Type) where
  inProto : DataType
  outProto : DataType
  handler : V → Except String V

/-- One incoming request as the server observes it: the request header
fields, the result `json.NewDecoder(dr).Decode` would produce on the data
message, and the data message taken as a raw octet stream. -/
structure IncomingRequest (V : Type) where
  endpoint : String
  dataType : DataType
  accept : DataType
  jsonBody : Except String V
  octetBody : V

/-- A reply sent by the server: the reply header and the data message, if
any. -/
structure Reply (V : Type) where
  header : Header
  body : Option V

/-- The `inval` determination of `ServeRequest`: for a `MarshaledJSON`
input type the JSON decode result of the data reader, for `Octets` the data
reader taken as is. -/
def decodeInput {V : Type} (ep : EndpointDescr V) (req : IncomingRequest V) :
    Except String V :=
  match ep.inProto with
  | DataType.marshaledJSON => req.jsonBody
  | DataType.octets => Except.ok req.octetBody

/-- `Server.ServeRequest` (after `recvRequest` succeeded): look up the
endpoint (unknown → RequestError reply), check `DataType` and `Accept`
against the endpoint (mismatch → RequestError reply), decode the input
(JSON decode error → RequestError reply), call the handler (handler error →
error reply carrying the handler's message), otherwise reply
`{Error: OK, DataType: out-proto}` plus the encoded output.  The second
component is the `err` result of `ServeRequest`: `none` on every reply path
(so `Serve` keeps the connection open), `some` only for errors that make
`Serve` hang up (none arise here since reply writes are modelled as
succeeding).

On the handler-error path the source writes
`NewErrorHeader(StatusError, "%s", he.Error())`; the identifier
`StatusError` is defined nowhere in the rpc package (see claim C4), so the
status of that reply is modelled from the spec: "Handler error ... reported
as ServerError in reply header". -/
def serveRequest {V : Type} (eps : String → Option (EndpointDescr V))
    (req : IncomingRequest V) : Reply V × Option String :=
  match eps req.endpoint with
  | none =>
    (⟨newErrorHeader Status.requestError
        ("unregistered endpoint " ++ req.endpoint), none⟩, none)
  | some ep =>
    if ep.inProto ≠ req.dataType then
      (⟨newErrorHeader Status.requestError
          ("wrong DataType for endpoint " ++ req.endpoint), none⟩, none)
    else if ep.outProto ≠ req.accept then
      (⟨newErrorHeader Status.requestError
          ("wrong Accept for endpoint " ++ req.endpoint), none⟩, none)
    else
      match decodeInput ep req with
      | Except.error e =>
        (⟨newErrorHeader Status.requestError
            ("cannot decode marshaled JSON: " ++ e), none⟩, none)
      | Except.ok v =>
        match ep.handler v with
        | Except.error he =>
          (⟨newErrorHeader Status.serverError he, none⟩, none)
        | Except.ok out =>
          (⟨⟨"", some ep.outProto, none, some Status.ok, ""⟩, some out⟩, none)

/-- `Server.Serve`: repeatedly `ServeRequest`; a `nil` error continues the
loop, a non-nil error (other than the `doneServeNext` pseudo-error) hangs
up.  The incoming side of the connection is the list of requests; when it
is exhausted, `recvRequest`'s header read fails and `Serve` hangs up.
Returns the replies sent and whether the server hung up. -/
def serveConn {V : Type} (eps : String → Option (EndpointDescr V)) :
    List (IncomingRequest V) → List (Reply V) × Bool
  | [] => ([], true)
  | r :: rs =>
    match serveRequest eps r with
    | (rep, none) =>
      let rest := serveConn eps rs
      (rep :: rest.1, rest.2)
    | (_, some _) => ([], true)

/-! ### Concrete instances used by witnesses and counterexamples -/

/-- A dataset filter denying every path (concrete ACL for exercising the
`HandleFilesystemVersionsRequest` bug). -/
def denyAllDatasetFilter : DatasetFilter := fun _ => Except.ok false

/-- A version filter admitting every version. -/
def admitAllVersionFilter : FilesystemVersionFilter := fun _ => Except.ok true

/-- A concrete snapshot version present on the server. -/
def c2Version : FilesystemVersion := ⟨VersionType.snapshot, "s1", 1, 1, 0⟩

/-- A concrete ZFS environment: version listing finds `c2Version`. -/
def c2Env : ZfsEnv where
  listFilesystemVersions := fun _ _ => Except.ok [c2Version]
  send := fun _ _ _ => Except.ok ⟨0⟩

/-- A handler whose dataset filter admits everything but whose version
filter denies everything. -/
def c3Handler : Handler := ⟨fun _ => Except.ok true, fun _ => Except.ok false⟩

/-- A pull environment where every remote call and receive succeeds and a
stream with id `i` carries `10 * i` bytes. -/
def c5Env : PullEnv where
  initialCall := fun _ => Except.ok ⟨1⟩
  incrementalCall := fun _ => Except.ok ⟨2⟩
  recvResult := fun _ _ _ => Except.ok ()
  recvBytes := fun s => 10 * s.id
  setResult := fun _ _ _ => Except.ok ()

/-- Concrete remote versions (spec pull scenario 1): snapshot `a`. -/
def vA : FilesystemVersion := ⟨VersionType.snapshot, "a", 1, 1, 0⟩

/-- Concrete remote versions (spec pull scenario 1): snapshot `b`. -/
def vB : FilesystemVersion := ⟨VersionType.snapshot, "b", 2, 2, 1⟩

/-- Concrete remote versions (spec pull scenario 1): bookmark `c`. -/
def vC : FilesystemVersion := ⟨VersionType.bookmark, "c", 3, 3, 2⟩

/-- Concrete remote versions: snapshot `d`. -/
def vD : FilesystemVersion := ⟨VersionType.snapshot, "d", 4, 4, 3⟩

/-- A concrete remote filesystem path. -/
def remoteFsC : DatasetPath := ⟨["tank", "db"]⟩

/-- A concrete local filesystem path. -/
def localFsC : DatasetPath := ⟨["backup", "db"]⟩

/-- A concrete endpoint registry over payload universe `Nat`: one
registered JSON endpoint. -/
def c1Endpoints : String → Option (EndpointDescr Nat) :=
  fun s =>
    if s = "FilesystemRequest" then
      some ⟨DataType.marshaledJSON, DataType.marshaledJSON, fun n => Except.ok (n + 1)⟩
    else
      none

/-- A request for an endpoint absent from `c1Endpoints`. -/
def c1Req1 : IncomingRequest Nat :=
  ⟨"NoSuchEndpoint", DataType.marshaledJSON, DataType.marshaledJSON, Except.ok 0, 0⟩

/-- A well-formed request for the registered endpoint of `c1Endpoints`. -/
def c1Req2 : IncomingRequest Nat :=
  ⟨"FilesystemRequest", DataType.marshaledJSON, DataType.marshaledJSON, Except.ok 41, 0⟩

/-- A registry with one endpoint whose handler always fails (a ZFS send
failure). -/
def c4Endpoints : String → Option (EndpointDescr Nat) :=
  fun s =>
    if s = "InitialTransferRequest" then
      some ⟨DataType.marshaledJSON, DataType.octets, fun _ => Except.error "zfs send failed"⟩
    else
      none

/-- A well-formed request for the failing endpoint of `c4Endpoints`. -/
def c4Req : IncomingRequest Nat :=
  ⟨"InitialTransferRequest", DataType.marshaledJSON, DataType.octets, Except.ok 7, 0⟩

end Zrepl

namespace Zrepl

/-! ### Claims C2 and C3 -/

/-- Claim C2 (code bug, evaluated at the failing input): a
`FilesystemVersionsRequest` for a path the dataset filter denies still
invokes the ZFS version listing and returns its versions, because
`if h.pullACLCheck(r.Filesystem, nil); err != nil` discards the check's
result and tests the still-nil named return `err`. -/
theorem versions_request_acl_not_gated :
    handleFilesystemVersionsRequest c2Env
        ⟨denyAllDatasetFilter, admitAllVersionFilter⟩
        ⟨⟨["forbidden", "dataset"]⟩⟩ =
      (Except.ok [c2Version], true) := rfl

/-- Claim C3: `HandleInitialTransferRequest` checks the filesystem path
against the dataset filter and the requested version against the version
filter; whenever either filter denies, the handler returns an error and
`ZFSSend` is never invoked (no send stream is opened). -/
theorem initial_transfer_denied_no_stream (env : ZfsEnv) (h : Handler)
    (r : InitialTransferRequest)
    (hdeny : h.dsf r.filesystem = Except.ok false ∨
      h.fsvf r.filesystemVersion = Except.ok false) :
    ∃ e, handleInitialTransferRequest env h r = (Except.error e, false) := by
  rcases hdeny with hd | hv
  · exact ⟨"ACL prohibits access to " ++ r.filesystem.toString,
      by simp [handleInitialTransferRequest, pullACLCheck, hd]⟩
  · cases hdsf : h.dsf r.filesystem with
    | error e =>
      exact ⟨"error evaluating ACL: " ++ e,
        by simp [handleInitialTransferRequest, pullACLCheck, hdsf]⟩
    | ok b =>
      cases b
      · exact ⟨"ACL prohibits access to " ++ r.filesystem.toString,
          by simp [handleInitialTransferRequest, pullACLCheck, hdsf]⟩
      · exact ⟨"ACL prohibits access to " ++ r.filesystemVersion.toAbsPath r.filesystem,
          by simp [handleInitialTransferRequest, pullACLCheck, hdsf, hv]⟩

/-- Witness for C3: with an admitting dataset filter and a denying version
filter, the initial transfer request errors out and opens no stream. -/
theorem initial_transfer_denied_no_stream_witness :
    (c3Handler.fsvf c2Version = Except.ok false) ∧
      ∃ e, handleInitialTransferRequest c2Env c3Handler
          ⟨⟨["tank", "db"]⟩, c2Version⟩ = (Except.error e, false) :=
  ⟨rfl, initial_transfer_denied_no_stream c2Env c3Handler
      ⟨⟨["tank", "db"]⟩, c2Version⟩ (Or.inr rfl)⟩

/-! ### Claims C5, C6 and C7 -/

/-- The `snapsOnly` loop is the order-preserving filter of the snapshot
versions. -/
theorem snapsOnly_foldl_eq (l : List FilesystemVersion) : ∀ acc,
    l.foldl (fun acc s => if s.type = VersionType.snapshot then acc ++ [s] else acc) acc
      = acc ++ l.filter (fun s => s.type = VersionType.snapshot) := by
  induction l with
  | nil => intro acc; simp
  | cons a t ih =>
    intro acc
    by_cases hc : a.type = VersionType.snapshot
    · simp [List.foldl_cons, List.filter_cons, hc, ih]
    · simp [List.foldl_cons, List.filter_cons, hc, ih]

/-- `snapsOnlyOf` in terms of `List.filter`. -/
theorem snapsOnlyOf_eq_filter (l : List FilesystemVersion) :
    snapsOnlyOf l = l.filter (fun s => s.type = VersionType.snapshot) := by
  simpa using snapsOnly_foldl_eq l []

/-- Under the `MostRecent` policy the guard passes and the branch body
runs. -/
theorem conflictAllRight_mostRecent (env : PullEnv) (remote localFs : DatasetPath)
    (placeholder : Bool) (mrca : List FilesystemVersion) :
    conflictAllRight InitialReplPolicy.mostRecent env remote localFs placeholder mrca
      = some (conflictAllRightBody env remote localFs placeholder mrca) := rfl

/-- Claim C5: in the `ConflictAllRight` branch under the `MostRecent`
policy, if the remote version list contains no snapshot then no transfer
request is issued and the filesystem is skipped (visitor result `false`);
otherwise exactly one initial transfer is requested, for the last (in
creation order) remote version whose `Type` is `Snapshot`, bookmarks being
excluded. -/
theorem allRight_selects_latest_snapshot (env : PullEnv)
    (remote localFs : DatasetPath) (placeholder : Bool)
    (mrcaPathRight : List FilesystemVersion) :
    (mrcaPathRight.filter (fun s => s.type = VersionType.snapshot) = [] →
      conflictAllRight InitialReplPolicy.mostRecent env remote localFs
          placeholder mrcaPathRight = some (false, [])) ∧
    (∀ v,
      (mrcaPathRight.filter (fun s => s.type = VersionType.snapshot)).getLast?
          = some v →
      (conflictAllRight InitialReplPolicy.mostRecent env remote localFs
          placeholder mrcaPathRight).map (fun res => initialReqsOf res.2)
        = some [(remote, v)]) := by
  constructor
  · intro hempty
    simp [conflictAllRight_mostRecent, conflictAllRightBody,
      snapsOnlyOf_eq_filter, hempty]
  · intro v hlast
    simp only [conflictAllRight_mostRecent, Option.map_some', conflictAllRightBody,
      snapsOnlyOf_eq_filter, hlast]
    split
    · simp [initialReqsOf]
    · split <;> simp [initialReqsOf]

/-- Witness for C5 (spec pull scenario 1): remote versions
`[@a(snap), @b(snap), #c(bookmark)]` yield exactly one initial transfer
request, for `@b`. -/
theorem allRight_selects_latest_snapshot_witness :
    (([vA, vB, vC].filter (fun s => s.type = VersionType.snapshot)).getLast?
        = some vB) ∧
      (conflictAllRight InitialReplPolicy.mostRecent c5Env remoteFsC localFsC
          false [vA, vB, vC]).map (fun res => initialReqsOf res.2)
        = some [(remoteFsC, vB)] :=
  ⟨by decide,
    (allRight_selects_latest_snapshot c5Env remoteFsC localFsC false
        [vA, vB, vC]).2 vB (by decide)⟩

/-- In the incremental loop, every `ZFSRecv` is invoked with no additional
flags. -/
theorem incrementalSteps_recv_args (env : PullEnv) (remote localFs : DatasetPath) :
    ∀ (pairs : List (FilesystemVersion × FilesystemVersion)) (p : DatasetPath)
      (args : List String),
      PullEvent.zfsRecv p args ∈ (incrementalSteps env remote localFs pairs).2.2 →
      args = [] := by
  intro pairs
  induction pairs with
  | nil => simp [incrementalSteps]
  | cons q rest ih =>
    intro p args hmem
    simp only [incrementalSteps] at hmem
    split at hmem
    · exact absurd (List.mem_singleton.mp hmem) (by simp)
    · split at hmem
      · rcases List.mem_cons.mp hmem with h | h2
        · exact absurd h (by simp)
        · injection List.mem_singleton.mp h2 with h1 hargs
      · rcases List.mem_cons.mp hmem with h | h2
        · exact absurd h (by simp)
        · rcases List.mem_cons.mp h2 with h | h3
          · injection h with h1 hargs
          · exact ih p args h3

/-- Claim C6: every initial-transfer receive is invoked with flag `-u`,
with the additional flag `-F` exactly when the local target filesystem is a
placeholder; receives in the incremental branch never pass `-F`. -/
theorem recv_flags (env env2 : PullEnv) (remote localFs : DatasetPath)
    (placeholder : Bool) (mrcaPathRight incrementalPath : List FilesystemVersion) :
    (∀ (p : DatasetPath) (args : List String),
      PullEvent.zfsRecv p args ∈
          (conflictAllRightBody env remote localFs placeholder mrcaPathRight).2 →
      args = if placeholder then ["-u", "-F"] else ["-u"]) ∧
    (∀ (p : DatasetPath) (args : List String),
      PullEvent.zfsRecv p args ∈
          (conflictIncremental env2 remote localFs incrementalPath).2.2 →
      "-F" ∉ args) := by
  constructor
  · intro p args hmem
    simp only [conflictAllRightBody] at hmem
    split at hmem
    · simp at hmem
    · split at hmem
      · exact absurd (List.mem_singleton.mp hmem) (by simp)
      · split at hmem
        · rcases List.mem_cons.mp hmem with h | h2
          · exact absurd h (by simp)
          · injection List.mem_singleton.mp h2 with h1 hargs
        · rcases List.mem_cons.mp hmem with h | h2
          · exact absurd h (by simp)
          · rcases List.mem_cons.mp h2 with h | h3
            · injection h with h1 hargs
            · exact absurd (List.mem_singleton.mp h3) (by simp)
  · intro p args hmem
    simp only [conflictIncremental] at hmem
    by_cases hlen : incrementalPath.length < 2
    · rw [if_pos hlen] at hmem
      simp at hmem
    · rw [if_neg hlen] at hmem
      have := incrementalSteps_recv_args env2 remote localFs
        (adjacentPairs incrementalPath) p args hmem
      simp [this]

/-- Witness for C6: with a placeholder target the initial receive passes
`["-u", "-F"]`; an incremental receive carries no `-F`. -/
theorem recv_flags_witness :
    (PullEvent.zfsRecv localFsC ["-u", "-F"] ∈
        (conflictAllRightBody c5Env remoteFsC localFsC true [vA, vB, vC]).2) ∧
      ((["-u", "-F"] : List String) = if (true : Bool) then ["-u", "-F"] else ["-u"]) ∧
      ((PullEvent.zfsRecv localFsC [] ∈
          (conflictIncremental c5Env remoteFsC localFsC [vA, vB]).2.2) ∧
        "-F" ∉ ([] : List String)) :=
  ⟨by decide,
    (recv_flags c5Env c5Env remoteFsC localFsC true [vA, vB, vC] [vA, vB]).1
        localFsC ["-u", "-F"] (by decide),
    by decide,
    (recv_flags c5Env c5Env remoteFsC localFsC true [vA, vB, vC] [vA, vB]).2
        localFsC [] (by decide)⟩

/-- When every call and receive of the incremental loop succeeds, the loop
performs exactly one transfer request followed by one receive per pair, in
order, and sums the received bytes. -/
theorem incrementalSteps_all_ok (env : PullEnv) (remote localFs : DatasetPath)
    (str : FilesystemVersion × FilesystemVersion → SendStream) :
    ∀ pairs : List (FilesystemVersion × FilesystemVersion),
      (∀ q ∈ pairs, env.incrementalCall ⟨remote, q.1, q.2⟩ = Except.ok (str q)) →
      (∀ q ∈ pairs, env.recvResult localFs [] (str q) = Except.ok ()) →
      incrementalSteps env remote localFs pairs =
        (true, (pairs.map (fun q => env.recvBytes (str q))).sum,
          pairs.flatMap (fun q =>
            [PullEvent.incrementalTransferReq remote q.1 q.2,
             PullEvent.zfsRecv localFs []])) := by
  intro pairs
  induction pairs with
  | nil => intro _ _; simp [incrementalSteps]
  | cons q rest ih =>
    intro hcall hrecv
    have hq := hcall q (List.mem_cons_self ..)
    have hr := hrecv q (List.mem_cons_self ..)
    have ihres := ih (fun x hx => hcall x (List.mem_cons_of_mem _ hx))
      (fun x hx => hrecv x (List.mem_cons_of_mem _ hx))
    simp [incrementalSteps, hq, hr, ihres]

/-- `adjacentPairs` of a list with fewer than two elements is empty. -/
theorem adjacentPairs_short (l : List FilesystemVersion) (h : l.length < 2) :
    adjacentPairs l = [] := by
  match l, h with
  | [], _ => rfl
  | [a], _ => rfl

/-- Claim C7: in the `ConflictIncremental` branch, an `IncrementalPath`
with fewer than 2 elements results in no transfer at all (in-sync no-op);
otherwise, when every step succeeds, the branch issues exactly one
`IncrementalTransferRequest` followed by one receive for each adjacent pair
of the path in index order, and accumulates the bytes received across all
steps. -/
theorem incremental_adjacent_pairs (env : PullEnv)
    (remote localFs : DatasetPath) (incrementalPath : List FilesystemVersion)
    (str : FilesystemVersion × FilesystemVersion → SendStream) :
    (incrementalPath.length < 2 →
      conflictIncremental env remote localFs incrementalPath = (true, 0, [])) ∧
    ((∀ q ∈ adjacentPairs incrementalPath,
        env.incrementalCall ⟨remote, q.1, q.2⟩ = Except.ok (str q)) →
     (∀ q ∈ adjacentPairs incrementalPath,
        env.recvResult localFs [] (str q) = Except.ok ()) →
      conflictIncremental env remote localFs incrementalPath =
        (true,
         ((adjacentPairs incrementalPath).map (fun q => env.recvBytes (str q))).sum,
         (adjacentPairs incrementalPath).flatMap (fun q =>
           [PullEvent.incrementalTransferReq remote q.1 q.2,
            PullEvent.zfsRecv localFs []]))) := by
  constructor
  · intro hlen
    simp [conflictIncremental, hlen]
  · intro hcall hrecv
    by_cases hlen : incrementalPath.length < 2
    · rw [adjacentPairs_short incrementalPath hlen]
      simp [conflictIncremental, hlen]
    · simp only [conflictIncremental, if_neg hlen]
      exact incrementalSteps_all_ok env remote localFs str
        (adjacentPairs incrementalPath) hcall hrecv

/-- Witness for C7 (spec pull scenario 3 shape): the path `[a, b, d]`
yields the two transfer requests `(a→b)` then `(b→d)`, each followed by a
receive, and 20 + 20 bytes accumulated. -/
theorem incremental_adjacent_pairs_witness :
    ((∀ q ∈ adjacentPairs [vA, vB, vD],
        c5Env.incrementalCall ⟨remoteFsC, q.1, q.2⟩ = Except.ok ⟨2⟩) ∧
      (∀ q ∈ adjacentPairs [vA, vB, vD],
        c5Env.recvResult localFsC [] ⟨2⟩ = Except.ok ())) ∧
      conflictIncremental c5Env remoteFsC localFsC [vA, vB, vD] =
        (true,
         ((adjacentPairs [vA, vB, vD]).map
            (fun q => c5Env.recvBytes ((fun _ => (⟨2⟩ : SendStream)) q))).sum,
         (adjacentPairs [vA, vB, vD]).flatMap (fun q =>
           [PullEvent.incrementalTransferReq remoteFsC q.1 q.2,
            PullEvent.zfsRecv localFsC []])) :=
  ⟨⟨fun _ _ => rfl, fun _ _ => rfl⟩,
    (incremental_adjacent_pairs c5Env remoteFsC localFsC [vA, vB, vD]
        (fun _ => ⟨2⟩)).2 (fun _ _ => rfl) (fun _ _ => rfl)⟩

/-! ### Claims C1 and C4 -/

/-- Claim C1: a request naming an endpoint absent from the registry is
answered with a header whose `Error` is `RequestError`, `ServeRequest`
returns no error (so `Serve` does not hang up), and a subsequent well-formed
request to a registered endpoint on the same connection is served normally
with an `OK` reply. -/
theorem unregistered_endpoint_connection_usable {V : Type}
    (eps : String → Option (EndpointDescr V)) (r1 r2 : IncomingRequest V)
    (ep : EndpointDescr V) (v out : V)
    (h1 : eps r1.endpoint = none)
    (h2 : eps r2.endpoint = some ep)
    (hin : ep.inProto = r2.dataType)
    (hout : ep.outProto = r2.accept)
    (hdec : decodeInput ep r2 = Except.ok v)
    (hh : ep.handler v = Except.ok out) :
    (serveRequest eps r1).2 = none ∧
      (serveConn eps [r1, r2]).1 =
        [⟨newErrorHeader Status.requestError
            ("unregistered endpoint " ++ r1.endpoint), none⟩,
         ⟨⟨"", some ep.outProto, none, some Status.ok, ""⟩, some out⟩] := by
  have hreq1 : serveRequest eps r1 =
      (⟨newErrorHeader Status.requestError
          ("unregistered endpoint " ++ r1.endpoint), none⟩, none) := by
    simp [serveRequest, h1]
  have hne1 : ¬ ep.inProto ≠ r2.dataType := by simp [hin]
  have hne2 : ¬ ep.outProto ≠ r2.accept := by simp [hout]
  have hreq2 : serveRequest eps r2 =
      (⟨⟨"", some ep.outProto, none, some Status.ok, ""⟩, some out⟩, none) := by
    simp only [serveRequest, h2, if_neg hne1, if_neg hne2, hdec, hh]
  refine ⟨by rw [hreq1], ?_⟩
  simp [serveConn, hreq1, hreq2]

/-- Witness for C1: on `c1Endpoints`, the unknown endpoint of `c1Req1` gets
a RequestError reply and the registered endpoint of `c1Req2` is then served
with an OK reply on the same connection. -/
theorem unregistered_endpoint_connection_usable_witness :
    (c1Endpoints c1Req1.endpoint = none ∧ (c1Endpoints c1Req2.endpoint).isSome) ∧
      ((serveRequest c1Endpoints c1Req1).2 = none ∧
        (serveConn c1Endpoints [c1Req1, c1Req2]).1 =
          [⟨newErrorHeader Status.requestError
              ("unregistered endpoint " ++ c1Req1.endpoint), none⟩,
           ⟨⟨"", some DataType.marshaledJSON, none, some Status.ok, ""⟩, some 42⟩]) :=
  ⟨⟨rfl, rfl⟩,
    unregistered_endpoint_connection_usable c1Endpoints c1Req1 c1Req2
      ⟨DataType.marshaledJSON, DataType.marshaledJSON, fun n => Except.ok (n + 1)⟩
      41 42 rfl rfl rfl rfl rfl rfl⟩

/-- Claim C4 (code bug, behaviour at the failing input): a request to a
registered endpoint whose handler fails is answered with an error header
carrying the handler's message and the connection stays open (the next
request is also served).  The reply's status is modelled from the spec as
`ServerError`: the source writes the undefined identifier `StatusError`
there (the package defines only `StatusOK`, `StatusRequestError`,
`StatusServerError`), so the Go sources do not compile as written. -/
theorem handler_error_reply_keeps_connection :
    serveRequest c4Endpoints c4Req =
      (⟨newErrorHeader Status.serverError "zfs send failed", none⟩, none) ∧
    (serveConn c4Endpoints [c4Req, c4Req]).1 =
      [⟨newErrorHeader Status.serverError "zfs send failed", none⟩,
       ⟨newErrorHeader Status.serverError "zfs send failed", none⟩] :=
  ⟨rfl, rfl⟩

/-! ### Claim C9: framing round trip -/

/-- The bytes `writeFrame` puts on the wire do not depend on the guard. -/
theorem writeFrame_fst (f : Frame) :
    (writeFrame f).1 =
      f.type % 256 :: boolByte f.noMoreFrames :: u32le f.payloadLength := by
  unfold writeFrame
  split <;> rfl

/-- Little-endian `uint32` decode inverts encode below `2 ^ 32`. -/
theorem decodeU32le_u32le (n : Nat) (h : n < 4294967296) :
    decodeU32le (n % 256) (n / 256 % 256) (n / 65536 % 256) (n / 16777216 % 256)
      = n := by
  unfold decodeU32le
  omega

/-- `readFrame` inverts `writeFrame` for an in-range frame, consuming
exactly the 6 header bytes. -/
theorem readFrame_writeFrame (f : Frame) (ht : f.type < 256)
    (hpl : f.payloadLength ≤ MAX_PAYLOAD_LENGTH) (rest : List Nat) :
    readFrame ((writeFrame f).1 ++ rest) = (Except.ok f, rest) := by
  obtain ⟨t, nm, pl⟩ := f
  dsimp only at ht hpl
  have h32 : pl < 4294967296 := by
    simp only [MAX_PAYLOAD_LENGTH] at hpl
    omega
  rw [writeFrame_fst]
  simp only [u32le, List.cons_append, List.nil_append, readFrame]
  rw [decodeU32le_u32le pl h32]
  rw [if_neg (by omega)]
  have ht2 : t % 256 % 256 = t := by omega
  cases nm <;> simp [boolByte, ht2]

/-- `writeUntilFrameFull` on a writer with an empty buffer, the standard
per-frame length and no limit: either a full frame is cut and flushed, or
the whole input lands in the buffer. -/
theorem writeUntilFrameFull_spec (ft : Nat) (lim : Int) (b wire : List Nat)
    (hb : b.length ≠ 0) (hlim : lim < 0) :
    writeUntilFrameFull ⟨ft, lim, MAX_PAYLOAD_LENGTH, []⟩ b wire =
      (if MAX_PAYLOAD_LENGTH ≤ b.length then
        (MAX_PAYLOAD_LENGTH,
          ⟨ft, lim - (MAX_PAYLOAD_LENGTH : Nat), MAX_PAYLOAD_LENGTH, []⟩,
          wire ++ (writeFrame ⟨ft, false, MAX_PAYLOAD_LENGTH⟩).1
            ++ b.take MAX_PAYLOAD_LENGTH,
          none)
      else
        (b.length, ⟨ft, lim - (b.length : Nat), MAX_PAYLOAD_LENGTH, b⟩,
          wire, none)) := by
  unfold writeUntilFrameFull
  rw [if_neg hb, if_neg (by omega : ¬ lim = 0)]
  have hcap : ¬ (0 < lim ∧ lim < ((min b.length (MAX_PAYLOAD_LENGTH - List.length ([] : List Nat))) : Nat)) := by
    intro hcontra
    omega
  simp only [List.length_nil, Nat.sub_zero, List.nil_append] at hcap ⊢
  rw [if_neg hcap]
  by_cases hle : MAX_PAYLOAD_LENGTH ≤ b.length
  · have hmin : min b.length MAX_PAYLOAD_LENGTH = MAX_PAYLOAD_LENGTH :=
      Nat.min_eq_right hle
    rw [hmin, if_pos hle]
    have htake : (b.take MAX_PAYLOAD_LENGTH).length = MAX_PAYLOAD_LENGTH := by
      simp [List.length_take, Nat.min_eq_left hle]
    rw [if_neg (by simp [MAX_PAYLOAD_LENGTH] at *; omega :
      ¬ lim - (MAX_PAYLOAD_LENGTH : Nat) = 0)]
    rw [if_pos (by simpa using htake)]
    simp [bwFlush, htake]
  · have hlt : b.length < MAX_PAYLOAD_LENGTH := Nat.lt_of_not_le hle
    have hmin : min b.length MAX_PAYLOAD_LENGTH = b.length :=
      Nat.min_eq_left (Nat.le_of_lt hlt)
    rw [hmin, if_neg hle]
    rw [if_neg (by omega : ¬ lim - (b.length : Nat) = 0)]
    rw [if_neg (by simpa using Nat.ne_of_lt hlt)]
    simp

/-- The write loop on the empty input is a no-op. -/
theorem bwWriteLoop_nil (fuel : Nat) (w : FrameBridgingWriter) (wire : List Nat) :
    bwWriteLoop fuel w [] wire = (w, wire, none) := by
  cases fuel <;> simp [bwWriteLoop]

/-- Writing a byte sequence through the bridging writer (empty buffer, no
limit) and closing produces exactly the chunked wire form. -/
theorem bwLoopClose_spec (ft : Nat) : ∀ (n : Nat) (b : List Nat) (lim : Int)
    (wire : List Nat) (fuel : Nat), b.length = n → lim < 0 → b.length ≤ fuel →
    (bwWriteLoop fuel ⟨ft, lim, MAX_PAYLOAD_LENGTH, []⟩ b wire).2.2 = none ∧
    (bwFlush (bwWriteLoop fuel ⟨ft, lim, MAX_PAYLOAD_LENGTH, []⟩ b wire).1 true
        (bwWriteLoop fuel ⟨ft, lim, MAX_PAYLOAD_LENGTH, []⟩ b wire).2.1).2
      = wire ++ chunkedWire ft b := by
  intro n
  induction n using Nat.strong_induction_on with
  | _ n ih =>
    intro b lim wire fuel hn hlim hfuel
    by_cases hb : b.length = 0
    · have hbnil : b = [] := List.length_eq_zero.mp hb
      subst hbnil
      rw [bwWriteLoop_nil]
      refine ⟨rfl, ?_⟩
      rw [chunkedWire]
      rw [dif_neg (by simp [MAX_PAYLOAD_LENGTH])]
      simp [bwFlush]
    · cases fuel with
      | zero => omega
      | succ fuel =>
        simp only [bwWriteLoop, if_neg hb]
        rw [writeUntilFrameFull_spec ft lim b wire hb hlim]
        by_cases hle : MAX_PAYLOAD_LENGTH ≤ b.length
        · rw [if_pos hle]
          simp only
          have hlim2 : lim - (MAX_PAYLOAD_LENGTH : Nat) < 0 := by omega
          have hfuel2 : (b.drop MAX_PAYLOAD_LENGTH).length ≤ fuel := by
            simp only [List.length_drop]
            simp only [MAX_PAYLOAD_LENGTH] at hle ⊢
            omega
          have hless : (b.drop MAX_PAYLOAD_LENGTH).length < n := by
            simp only [List.length_drop]
            simp only [MAX_PAYLOAD_LENGTH] at hle ⊢
            omega
          have ihres := ih (b.drop MAX_PAYLOAD_LENGTH).length hless
            (b.drop MAX_PAYLOAD_LENGTH) (lim - (MAX_PAYLOAD_LENGTH : Nat))
            (wire ++ (writeFrame ⟨ft, false, MAX_PAYLOAD_LENGTH⟩).1
              ++ b.take MAX_PAYLOAD_LENGTH)
            fuel rfl hlim2 hfuel2
          refine ⟨ihres.1, ?_⟩
          rw [ihres.2]
          conv_rhs => rw [chunkedWire]
          rw [dif_pos hle]
          simp [List.append_assoc]
        · rw [if_neg hle]
          simp only
          rw [List.drop_length, bwWriteLoop_nil]
          refine ⟨rfl, ?_⟩
          conv_rhs => rw [chunkedWire]
          rw [dif_neg hle]
          simp [bwFlush, List.append_assoc]

/-- A `Read` on an exhausted-and-final frame is end of stream. -/
theorem brRead_eof (ft : Nat) (lim : Int) (g : Frame) (wire : List Nat)
    (hlim : lim < 0) (hpl : g.payloadLength = 0) (hnm : g.noMoreFrames = true) :
    brRead ⟨ft, lim, g⟩ MAX_PAYLOAD_LENGTH wire
      = (ReadResult.eof, ⟨ft, lim, g⟩, wire) := by
  unfold brRead
  rw [if_neg (by dsimp only; omega)]
  dsimp only
  rw [if_pos hpl, if_pos hnm]

/-- `brReadPayload` on a frame whose whole non-empty payload heads the
channel consumes exactly the payload. -/
theorem brReadPayload_full (ft : Nat) (lim : Int) (g : Frame)
    (payload rest : List Nat) (hlim : lim < 0)
    (hgpl : g.payloadLength ≤ MAX_PAYLOAD_LENGTH)
    (hplen : payload.length = g.payloadLength) (hpos : g.payloadLength ≠ 0) :
    brReadPayload ⟨ft, lim, g⟩ MAX_PAYLOAD_LENGTH (payload ++ rest) =
      (ReadResult.bytes payload,
        ⟨ft, lim - (g.payloadLength : Nat), ⟨g.type, g.noMoreFrames, 0⟩⟩,
        rest) := by
  have hmin : min MAX_PAYLOAD_LENGTH g.payloadLength = g.payloadLength :=
    Nat.min_eq_right hgpl
  have hcap : ¬ (0 < lim ∧ lim < ((g.payloadLength : Nat) : Int)) := by omega
  have hwlen : ¬ ((payload ++ rest).length = 0) := by
    simp only [List.length_append, hplen]
    omega
  have hnb : min g.payloadLength (payload ++ rest).length = g.payloadLength := by
    apply Nat.min_eq_left
    simp [hplen]
  simp only [brReadPayload, hmin, if_neg hcap, if_neg hpos, if_neg hwlen, hnb]
  rw [← hplen, List.take_left, List.drop_left]
  simp [hplen]

/-- `brReadPayload` on an already-exhausted frame is a zero-byte read. -/
theorem brReadPayload_zero (ft : Nat) (lim : Int) (g : Frame)
    (wire : List Nat) (hlim : lim < 0) (hzero : g.payloadLength = 0) :
    brReadPayload ⟨ft, lim, g⟩ MAX_PAYLOAD_LENGTH wire
      = (ReadResult.bytes [], ⟨ft, lim, g⟩, wire) := by
  have hcap : ¬ (0 < lim ∧ lim < ((0 : Nat) : Int)) := by omega
  simp only [brReadPayload, hzero, Nat.min_zero, if_neg hcap]
  simp

/-- A `Read` facing a well-formed frame of the reader's type with a
non-empty payload consumes the 6-byte header and the whole payload. -/
theorem brRead_full_frame (ft : Nat) (lim : Int) (f0 g : Frame)
    (payload rest : List Nat)
    (hft : ft < 256) (hlim : lim < 0) (hpl0 : f0.payloadLength = 0)
    (hnm0 : f0.noMoreFrames = false) (hgt : g.type = ft)
    (hgpl : g.payloadLength ≤ MAX_PAYLOAD_LENGTH)
    (hplen : payload.length = g.payloadLength) (hpos : g.payloadLength ≠ 0) :
    brRead ⟨ft, lim, f0⟩ MAX_PAYLOAD_LENGTH
        ((writeFrame g).1 ++ (payload ++ rest)) =
      (ReadResult.bytes payload,
        ⟨ft, lim - (g.payloadLength : Nat), ⟨g.type, g.noMoreFrames, 0⟩⟩,
        rest) := by
  unfold brRead
  dsimp only
  rw [if_neg (show ¬ lim = 0 by omega)]
  rw [if_pos hpl0, if_neg (show ¬ f0.noMoreFrames = true by simp [hnm0])]
  rw [readFrame_writeFrame g (hgt ▸ hft) hgpl]
  dsimp only
  rw [if_neg (not_not_intro hgt)]
  exact brReadPayload_full ft lim g payload rest hlim hgpl hplen hpos

/-- A `Read` facing a well-formed frame of the reader's type with an empty
payload consumes only the 6-byte header and returns zero bytes. -/
theorem brRead_empty_frame (ft : Nat) (lim : Int) (f0 g : Frame)
    (rest : List Nat)
    (hft : ft < 256) (hlim : lim < 0) (hpl0 : f0.payloadLength = 0)
    (hnm0 : f0.noMoreFrames = false) (hgt : g.type = ft)
    (hzero : g.payloadLength = 0) :
    brRead ⟨ft, lim, f0⟩ MAX_PAYLOAD_LENGTH ((writeFrame g).1 ++ rest) =
      (ReadResult.bytes [], ⟨ft, lim, g⟩, rest) := by
  unfold brRead
  dsimp only
  rw [if_neg (show ¬ lim = 0 by omega)]
  rw [if_pos hpl0, if_neg (show ¬ f0.noMoreFrames = true by simp [hnm0])]
  rw [readFrame_writeFrame g (hgt ▸ hft) (by rw [hzero]; exact Nat.zero_le _)]
  dsimp only
  rw [if_neg (not_not_intro hgt)]
  exact brReadPayload_zero ft lim g rest hlim hzero

/-- Reading the chunked wire form of `S` through the bridging reader
returns exactly `S` appended to the accumulator. -/
theorem brReadAll_chunkedWire (ft : Nat) (hft : ft < 256) :
    ∀ (n : Nat) (S : List Nat) (lim : Int) (f0 : Frame) (acc : List Nat)
      (fuel : Nat), S.length = n → lim < 0 → f0.payloadLength = 0 →
      f0.noMoreFrames = false → S.length + 2 ≤ fuel →
      brReadAll fuel ⟨ft, lim, f0⟩ (chunkedWire ft S) acc
        = Except.ok (acc ++ S) := by
  intro n
  induction n using Nat.strong_induction_on with
  | _ n ih =>
    intro S lim f0 acc fuel hn hlim hf0pl hf0nm hfuel
    obtain ⟨fuel, rfl⟩ : ∃ m, fuel = m + 1 := ⟨fuel - 1, by omega⟩
    rw [chunkedWire]
    by_cases hle : MAX_PAYLOAD_LENGTH ≤ S.length
    · rw [dif_pos hle]
      have htakelen : (S.take MAX_PAYLOAD_LENGTH).length = MAX_PAYLOAD_LENGTH := by
        simp [List.length_take, Nat.min_eq_left hle]
      simp only [brReadAll, List.append_assoc]
      rw [brRead_full_frame ft lim f0 ⟨ft, false, MAX_PAYLOAD_LENGTH⟩
        (S.take MAX_PAYLOAD_LENGTH) (chunkedWire ft (S.drop MAX_PAYLOAD_LENGTH))
        hft hlim hf0pl hf0nm rfl le_rfl htakelen
        (by simp [MAX_PAYLOAD_LENGTH])]
      dsimp only
      have hless : (S.drop MAX_PAYLOAD_LENGTH).length < n := by
        simp only [List.length_drop]
        simp only [MAX_PAYLOAD_LENGTH] at hle ⊢
        omega
      have hfuel2 : (S.drop MAX_PAYLOAD_LENGTH).length + 2 ≤ fuel := by
        simp only [List.length_drop]
        simp only [MAX_PAYLOAD_LENGTH] at hle hfuel ⊢
        omega
      rw [ih (S.drop MAX_PAYLOAD_LENGTH).length hless
        (S.drop MAX_PAYLOAD_LENGTH) (lim - (MAX_PAYLOAD_LENGTH : Nat))
        ⟨ft, false, 0⟩ (acc ++ S.take MAX_PAYLOAD_LENGTH) fuel rfl
        (by omega) rfl rfl hfuel2]
      rw [List.append_assoc, List.take_append_drop]
    · rw [dif_neg hle]
      have hplS : S.length ≤ MAX_PAYLOAD_LENGTH :=
        Nat.le_of_lt (Nat.lt_of_not_le hle)
      by_cases hS : S.length = 0
      · have hSnil : S = [] := List.length_eq_zero.mp hS
        subst hSnil
        simp only [brReadAll, List.length_nil]
        rw [brRead_empty_frame ft lim f0 ⟨ft, true, 0⟩ []
          hft hlim hf0pl hf0nm rfl rfl]
        dsimp only
        obtain ⟨fuel, rfl⟩ : ∃ m, fuel = m + 1 := ⟨fuel - 1, by omega⟩
        simp only [brReadAll]
        rw [brRead_eof ft lim ⟨ft, true, 0⟩ [] hlim rfl rfl]
      · simp only [brReadAll]
        rw [show (writeFrame ⟨ft, true, S.length⟩).1 ++ S
            = (writeFrame ⟨ft, true, S.length⟩).1 ++ (S ++ []) by simp]
        rw [brRead_full_frame ft lim f0 ⟨ft, true, S.length⟩ S []
          hft hlim hf0pl hf0nm rfl hplS rfl hS]
        dsimp only
        obtain ⟨fuel, rfl⟩ : ∃ m, fuel = m + 1 := ⟨fuel - 1, by omega⟩
        simp only [brReadAll]
        rw [brRead_eof ft (lim - (S.length : Nat)) ⟨ft, true, 0⟩ []
          (by omega) rfl rfl]

/-- Claim C9: for every byte sequence `S`, writing `S` through the
frame-bridging writer (with final close) onto a channel and reading that
channel back through the frame-bridging reader of the same frame type
yields exactly `S` followed by end-of-stream; and a single frame
`(T, NoMoreFrames=true, |P|, P)` with `|P| ≤ 4 MiB` written then read
yields the same tuple. -/
theorem framing_round_trip (ft : Nat) (hft : ft < 256) (S : List Nat)
    (T : Nat) (hT : T < 256) (P : List Nat) (hP : P.length ≤ 4194304) :
    brReadAll (S.length + 2) ⟨ft, -1, ⟨0, false, 0⟩⟩ (writeStream ft S) []
        = Except.ok S ∧
      ((writeFrame ⟨T, true, P.length⟩).2 = none ∧
        readFrame ((writeFrame ⟨T, true, P.length⟩).1 ++ P)
          = (Except.ok ⟨T, true, P.length⟩, P)) := by
  refine ⟨?_, ?_, ?_⟩
  · have hw := bwLoopClose_spec ft S.length S (-1) [] S.length rfl
      (by omega) le_rfl
    have hws : writeStream ft S = chunkedWire ft S := by
      unfold writeStream
      rw [hw.2]
      simp
    rw [hws]
    simpa using brReadAll_chunkedWire ft hft S.length S (-1) ⟨0, false, 0⟩ []
      (S.length + 2) rfl (by omega) rfl rfl le_rfl
  · unfold writeFrame
    rw [if_neg (by simp only [MAX_PAYLOAD_LENGTH]; omega)]
  · exact readFrame_writeFrame ⟨T, true, P.length⟩ hT
      (by simpa [MAX_PAYLOAD_LENGTH] using hP) P

/-- Witness for C9: the concrete stream `[9, 8, 7]` and frame payload `[5]`
round-trip. -/
theorem framing_round_trip_witness :
    ((2 : Nat) < 256 ∧ (1 : Nat) < 256 ∧ ([5] : List Nat).length ≤ 4194304) ∧
      (brReadAll ([9, 8, 7].length + 2) ⟨2, -1, ⟨0, false, 0⟩⟩
          (writeStream 2 [9, 8, 7]) [] = Except.ok [9, 8, 7] ∧
        ((writeFrame ⟨1, true, ([5] : List Nat).length⟩).2 = none ∧
          readFrame ((writeFrame ⟨1, true, ([5] : List Nat).length⟩).1 ++ [5])
            = (Except.ok ⟨1, true, ([5] : List Nat).length⟩, [5]))) :=
  ⟨⟨by decide, by decide, by decide⟩,
    framing_round_trip 2 (by decide) [9, 8, 7] 1 (by decide) [5] (by decide)⟩

/-! ### Claims C8 and C10 -/

/-- Claim C8: for every frame with `PayloadLength` greater than 4 MiB
(4194304 bytes), `writeFrame` fails with an error, and `readFrame` fails
with an error after reading only the 6-byte frame header, leaving every
payload byte unconsumed on the channel. -/
theorem frame_size_guard (f : Frame) (hf : f.payloadLength > 4194304)
    (t nm b0 b1 b2 b3 : Nat) (rest : List Nat)
    (hdecl : decodeU32le b0 b1 b2 b3 > 4194304) :
    (writeFrame f).2.isSome ∧
      readFrame (t :: nm :: b0 :: b1 :: b2 :: b3 :: rest) =
        (Except.error "frame exceeds max payload length", rest) := by
  constructor
  · simp only [writeFrame, MAX_PAYLOAD_LENGTH]
    rw [if_pos (by omega)]
    simp
  · simp only [readFrame, MAX_PAYLOAD_LENGTH]
    rw [if_pos (by omega)]

/-- Witness for C8: the guard fires at the concrete payload length
4194305 = 0x400001 (length bytes 01 00 40 00). -/
theorem frame_size_guard_witness :
    ((4194305 : Nat) > 4194304 ∧ decodeU32le 1 0 64 0 > 4194304) ∧
      ((writeFrame ⟨2, true, 4194305⟩).2.isSome ∧
        readFrame (2 :: 1 :: 1 :: 0 :: 64 :: 0 :: [7, 7, 7]) =
          (Except.error "frame exceeds max payload length", [7, 7, 7])) :=
  ⟨⟨by decide, by decide⟩,
    frame_size_guard ⟨2, true, 4194305⟩ (by decide) 2 1 1 0 64 0 [7, 7, 7] (by decide)⟩

/-- Claim C10: `HangUp` always closes the underlying byte channel, even when
writing the RST frame fails; its result is the RST-frame write error when
that write failed, and otherwise the error result of closing the channel. -/
theorem hangUp_closes_and_reports (ch : ByteChannel) :
    (hangUp ch).1.closed = true ∧
      (hangUp ch).2 = (match ch.writeErr with
        | some e => some e
        | none => ch.closeErr) := by
  unfold hangUp writeFrameOnChannel writeFrame
  cases h : ch.writeErr with
  | none => simp [h, MAX_PAYLOAD_LENGTH]
  | some e => simp [h]

end Zrepl
